import Mathlib

/-!
Shallow embedding of `src/Model/DataCollection.py` (DDR-Tracker).

Machine floats are modelled by `ℚ` and Python `int` by `ℤ` / `ℕ`.  A pose
detection result (33 landmarks, each with x, y, z, visibility) is a function
`Fin 33 → Fin 4 → ℚ`; the flattened 132-vector held in the smoothing deque is
a function `Fin 132 → ℚ`, flat index = landmark index * 4 + coordinate index,
coordinate order x, y, z, visibility, exactly as in lines 174-181 and 194-198
of the source.  The external collaborators (cv2 capture, MediaPipe pose) are
modelled by a `Video` value carrying the reported frame count and, for every
decodable frame in decode order, the detector's answer for that frame.
The source's default arguments (`frames_per_sample=96`, `smoothing_window=5`)
are passed explicitly by every caller here.
-/

/-- A pose detection: 33 landmarks, each with 4 numeric fields
(x, y, z, visibility), as delivered by the external detector. -/
abbrev Lmk : Type := Fin 33 → Fin 4 → ℚ

/-- A flattened landmark vector of length 33 * 4 = 132. -/
abbrev Vec132 : Type := Fin 132 → ℚ

/-- One output record: the Python dict with keys `sample_number`,
`frame_number`, `dance_name` and the 132 `landmark_idx_coord` keys. -/
structure FrameRec where
  sample_number : ℤ
  frame_number : ℤ
  dance_name : String
  coords : Lmk

instance : Inhabited FrameRec := ⟨⟨0, 0, (""), fun _ _ => 0⟩⟩

/-- Line 11 of the source: the fixed dance-name vocabulary, in order. -/
def VALID_DANCE_NAMES : List String :=
  [("default_dance"), ("griddy"), ("floss"), ("squabble"), ("boogie_down"),
   ("laugh"), ("boogie_up")]

/-- Lines 18-32: `create_landmark_dict` packs the raw landmark values with
the metadata fields into one record. -/
def create_landmark_dict (landmarks : Lmk) (sample_number frame_number : ℤ)
    (dance_name : String) : FrameRec :=
  { sample_number := sample_number, frame_number := frame_number,
    dance_name := dance_name, coords := landmarks }

/-- Lines 34-53: `smooth_landmarks`.  `None` when the buffer is empty,
otherwise the element-wise `np.mean` of the Python slice
`buffer_array[-smoothing_window:]` (for a positive window this is the last
`smoothing_window` entries, i.e. all of them when fewer are held; the
degenerate slice `[-0:]` is the whole list). -/
def smooth_landmarks (buffer : List Vec132) (smoothing_window : ℕ) : Option Vec132 :=
  if buffer.length < 1 then none
  else
    let tail := if smoothing_window = 0 then buffer
                else buffer.drop (buffer.length - smoothing_window)
    some (fun k => (tail.map (fun v => v k)).sum / (tail.length : ℚ))

/-- Lines 55-86: `interpolate_missing_frames`.  For each `i` in
`1..num_missing`, ratio `i / (num_missing + 1)`, each numeric field linearly
interpolated between `prev_frame` and `next_frame`, `frame_number` continuing
from `prev_frame`, metadata copied from `prev_frame`. -/
def interpolate_missing_frames (prev_frame next_frame : FrameRec)
    (num_missing : ℕ) : List FrameRec :=
  (List.range num_missing).map (fun j =>
    let i : ℕ := j + 1
    let ratio : ℚ := (i : ℚ) / ((num_missing : ℚ) + 1)
    { sample_number := prev_frame.sample_number,
      frame_number := prev_frame.frame_number + (i : ℤ),
      dance_name := prev_frame.dance_name,
      coords := fun idx coord =>
        (1 - ratio) * prev_frame.coords idx coord
          + ratio * next_frame.coords idx coord })

/-- Python `needle in haystack` restricted to the start: does `pat` occur as
a prefix of the first list? -/
def chars_start_with : List Char → List Char → Bool
  | _, [] => true
  | [], _ :: _ => false
  | a :: s, b :: t => a == b && chars_start_with s t

/-- Python substring test `pat in s` on char lists. -/
def chars_have_sub : List Char → List Char → Bool
  | [], pat => chars_start_with [] pat
  | c :: s, pat => chars_start_with (c :: s) pat || chars_have_sub s pat

/-- Python `str.lower()`: lower-case every character. -/
def lower_str (s : String) : String := ⟨s.data.map Char.toLower⟩

/-- The `for dance in valid_dances` loop of lines 100-104: first match wins. -/
def extract_dance_name_go (filename_lower : String) : List String → String
  | [] => ("unknown")
  | dance :: rest =>
      if chars_have_sub filename_lower.data (lower_str dance).data then lower_str dance
      else extract_dance_name_go filename_lower rest

/-- Lines 88-105: `extract_dance_name`. -/
def extract_dance_name (filename : String) (valid_dances : List String) : String :=
  extract_dance_name_go (lower_str filename) valid_dances

/-- Flattening of lines 174-181: `[x, y, z, visibility]` per landmark,
concatenated in landmark order. -/
def flatten_landmarks (lm : Lmk) : Vec132 := fun k =>
  lm ⟨k.val / 4, by have h := k.isLt; omega⟩ ⟨k.val % 4, by omega⟩

/-- Unflattening of lines 194-198: field `(idx, coord)` is read from flat
position `idx * 4 + coord`. -/
def unflatten_vec (v : Vec132) : Lmk := fun idx coord =>
  v ⟨idx.val * 4 + coord.val, by have h1 := idx.isLt; have h2 := coord.isLt; omega⟩

/-- A `deque(maxlen=maxlen)` append: keep the most recent `maxlen` entries. -/
def push_buffer (buf : List Vec132) (v : Vec132) (maxlen : ℕ) : List Vec132 :=
  let b := buf ++ [v]
  if maxlen < b.length then b.drop (b.length - maxlen) else b

/-- The external world of `process_video`: the filename (the basename the
source extracts from the path), the frame count reported by
`CAP_PROP_FRAME_COUNT`, and the detector's result for each decodable frame
in decode order (`none` = `results.pose_landmarks` is falsy). -/
structure Video where
  filename : String
  total_frames : ℕ
  detections : List (Option Lmk)

/-- Loop state of `process_video` (lines 149-221), instrumented with the
0-based positions of the frames actually read (`decoded`) and of the frames
handed to `pose.process` (`submitted`). -/
structure PVState where
  data : List FrameRec
  frame_count : ℕ
  sampled_frames : ℕ
  frame_buffer : List Vec132
  decoded : List ℕ
  submitted : List ℕ

def initState : PVState := ⟨[], 0, 0, [], [], []⟩

/-- Body of lines 163-219: what happens to the state when a sampled frame is
submitted to the detector (the position-modulo test has already passed). -/
def pvSelected (sample_number : ℤ) (dance_name : String) (smoothing_window : ℕ)
    (detection : Option Lmk) (s : PVState) : PVState :=
  match detection with
  | some landmarks =>
      let landmark_dict :=
        create_landmark_dict landmarks sample_number ((s.sampled_frames : ℤ) + 1) dance_name
      let flattened_landmarks := flatten_landmarks landmark_dict.coords
      let frame_buffer := push_buffer s.frame_buffer flattened_landmarks smoothing_window
      let data :=
        match smooth_landmarks frame_buffer smoothing_window with
        | some smoothed_landmarks =>
            s.data ++ [{ sample_number := sample_number,
                         frame_number := (s.sampled_frames : ℤ) + 1,
                         dance_name := dance_name,
                         coords := unflatten_vec smoothed_landmarks }]
        | none => s.data
      { s with data := data, frame_buffer := frame_buffer,
               sampled_frames := s.sampled_frames + 1 }
  | none =>
      if 2 ≤ s.data.length then
        let prev_frame := s.data.getD (s.data.length - 2) default
        let next_frame := s.data.getD (s.data.length - 1) default
        { s with data := s.data ++ interpolate_missing_frames prev_frame next_frame 1,
                 sampled_frames := s.sampled_frames + 1 }
      else s

/-- One iteration of the `while` loop (lines 155-221) once `cap.read`
succeeded: record the decode, run the interval test of line 162, and bump
`frame_count` (line 221). -/
def pvStep (sample_number : ℤ) (dance_name : String)
    (frame_interval smoothing_window : ℕ) (detection : Option Lmk)
    (s : PVState) : PVState :=
  let s1 := { s with decoded := s.decoded ++ [s.frame_count] }
  let s2 :=
    if s1.frame_count % frame_interval = 0 then
      pvSelected sample_number dance_name smoothing_window detection
        { s1 with submitted := s1.submitted ++ [s1.frame_count] }
    else s1
  { s2 with frame_count := s2.frame_count + 1 }

/-- The `while cap.isOpened() and sampled_frames < frames_per_sample` loop:
stop when the target count is reached or the stream runs out. -/
def pvRun (sample_number : ℤ) (dance_name : String)
    (frames_per_sample frame_interval smoothing_window : ℕ) :
    List (Option Lmk) → PVState → PVState
  | [], s => s
  | detection :: rest, s =>
      if s.sampled_frames < frames_per_sample then
        pvRun sample_number dance_name frames_per_sample frame_interval
          smoothing_window rest
          (pvStep sample_number dance_name frame_interval smoothing_window detection s)
      else s

/-- Lines 107-224: `process_video`, returning the final instrumented loop
state.  `frames_per_sample` is assumed positive (the Python `//` of line 133
would raise on 0; the source always passes 96). -/
def process_video_trace (video : Video) (sample_number : ℤ)
    (frames_per_sample smoothing_window : ℕ) : PVState :=
  if video.total_frames = 0 then initState
  else
    let frame_interval := max 1 (video.total_frames / frames_per_sample)
    let dance_name := extract_dance_name video.filename VALID_DANCE_NAMES
    if dance_name = ("unknown") then initState
    else
      pvRun sample_number dance_name frames_per_sample frame_interval
        smoothing_window video.detections initState

/-- The list of records `process_video` returns. -/
def process_video (video : Video) (sample_number : ℤ)
    (frames_per_sample smoothing_window : ℕ) : List FrameRec :=
  (process_video_trace video sample_number frames_per_sample smoothing_window).data

/-- The spec's naive element-wise arithmetic mean of a list of vectors
(testable property 4 of the spec): per-component sum divided by the number
of vectors.  Stated from the spec's words, to be compared with
`smooth_landmarks`. -/
def naive_mean (l : List Vec132) : Vec132 :=
  fun k => (l.map (fun v => v k)).sum / (l.length : ℚ)

/-- The record for missing step `i` (1-based) among the frames produced by
`interpolate_missing_frames`. -/
def interp_at (p q : FrameRec) (m i : ℕ) : FrameRec :=
  (interpolate_missing_frames p q m).getD (i - 1) default

/-- A constant landmark grid, used for concrete inputs. -/
def lmkConst (q : ℚ) : Lmk := fun _ _ => q

/-- A constant flattened vector, used for concrete buffers. -/
def vecConst (q : ℚ) : Vec132 := fun _ => q

/-- A video whose reported frame count is zero. -/
def vid0 : Video :=
  { filename := ("griddy.mp4"), total_frames := 0, detections := [] }

/-- A four-frame griddy video: detection succeeds on frames 0, 1, 3 and
fails on frame 2.  With `frames_per_sample = 4` every frame is sampled. -/
def vid1 : Video :=
  { filename := ("griddy.mp4"), total_frames := 4,
    detections := [some (lmkConst 0), some (lmkConst 1), none, some (lmkConst 2)] }

/-- A one-frame floss video with one successful detection. -/
def vid2 : Video :=
  { filename := ("floss.mp4"), total_frames := 1,
    detections := [some (lmkConst 1)] }

/-- A video whose filename contains no vocabulary term. -/
def vid3 : Video :=
  { filename := ("clip001.mp4"), total_frames := 5,
    detections := [some (lmkConst 1)] }

/-- A concrete record, used as input of the interpolation witnesses. -/
def wrec (n : ℤ) : FrameRec :=
  { sample_number := 7, frame_number := n, dance_name := ("floss"),
    coords := lmkConst (n : ℚ) }

/-- A concrete loop state holding two accumulated records, positioned at a
selected frame (`frame_count = 2`, interval 1). -/
def wstate : PVState :=
  { data := [wrec 1, wrec 2], frame_count := 2, sampled_frames := 2,
    frame_buffer := [], decoded := [0, 1], submitted := [0, 1] }

/-! ## Helper lemmas about the pure routines -/

lemma interpolate_length (p q : FrameRec) (m : ℕ) :
    (interpolate_missing_frames p q m).length = m := by
  simp [interpolate_missing_frames]

lemma interpolate_meta (p q : FrameRec) (m : ℕ) :
    ∀ f ∈ interpolate_missing_frames p q m,
      f.sample_number = p.sample_number ∧ f.dance_name = p.dance_name := by
  intro f hf
  simp only [interpolate_missing_frames, List.mem_map] at hf
  obtain ⟨j, _, rfl⟩ := hf
  exact ⟨rfl, rfl⟩

lemma getD_mem_of_lt (l : List FrameRec) (n : ℕ) (h : n < l.length) :
    l.getD n default ∈ l := by
  rw [List.getD_eq_getElem l default h]
  exact List.getElem_mem h

lemma headD_mem_of_length_pos {α : Type} (l : List α) (d : α) (h : 0 < l.length) :
    l.headD d ∈ l := by
  cases l with
  | nil => simp at h
  | cons a t => simp [List.headD]

lemma push_buffer_nil (v : Vec132) (w : ℕ) (hw : 1 ≤ w) :
    push_buffer [] v w = [v] := by
  have h : ¬ w < ([] ++ [v] : List Vec132).length := by simp; omega
  simp only [push_buffer, h, if_false]
  simp

lemma smooth_single (v : Vec132) (w : ℕ) (hw : 1 ≤ w) :
    smooth_landmarks [v] w = some v := by
  have hw0 : ¬ w = 0 := by omega
  have h1 : (1 : ℕ) - w = 0 := by omega
  simp only [smooth_landmarks, List.length_singleton, hw0]
  simp only [h1, List.drop_zero, if_false]
  have : ¬ (1 : ℕ) < 1 := by omega
  simp only [this, if_false]
  congr 1
  funext k
  simp

lemma unflatten_flatten (lm : Lmk) : unflatten_vec (flatten_landmarks lm) = lm := by
  funext idx coord
  simp only [unflatten_vec, flatten_landmarks]
  congr 1
  · exact Fin.ext (by have h := coord.isLt; simp; omega)
  · exact Fin.ext (by have h := coord.isLt; simp; omega)

/-! ## Projection lemmas for one loop iteration -/

lemma pvSelected_decoded (sn : ℤ) (dn : String) (w : ℕ) (d : Option Lmk) (s : PVState) :
    (pvSelected sn dn w d s).decoded = s.decoded := by
  cases d with
  | some l => rfl
  | none => simp only [pvSelected]; split <;> rfl

lemma pvSelected_submitted (sn : ℤ) (dn : String) (w : ℕ) (d : Option Lmk) (s : PVState) :
    (pvSelected sn dn w d s).submitted = s.submitted := by
  cases d with
  | some l => rfl
  | none => simp only [pvSelected]; split <;> rfl

lemma pvSelected_frame_count (sn : ℤ) (dn : String) (w : ℕ) (d : Option Lmk) (s : PVState) :
    (pvSelected sn dn w d s).frame_count = s.frame_count := by
  cases d with
  | some l => rfl
  | none => simp only [pvSelected]; split <;> rfl

lemma pvSelected_sampled_le (sn : ℤ) (dn : String) (w : ℕ) (d : Option Lmk) (s : PVState) :
    (pvSelected sn dn w d s).sampled_frames ≤ s.sampled_frames + 1 := by
  cases d with
  | some l => exact le_refl _
  | none =>
      simp only [pvSelected]; split
      · exact le_refl _
      · omega

lemma pvStep_decoded (sn : ℤ) (dn : String) (iv w : ℕ) (d : Option Lmk) (s : PVState) :
    (pvStep sn dn iv w d s).decoded = s.decoded ++ [s.frame_count] := by
  simp only [pvStep]
  split
  · rw [pvSelected_decoded]
  · rfl

lemma pvStep_submitted (sn : ℤ) (dn : String) (iv w : ℕ) (d : Option Lmk) (s : PVState) :
    (pvStep sn dn iv w d s).submitted =
      if s.frame_count % iv = 0 then s.submitted ++ [s.frame_count] else s.submitted := by
  simp only [pvStep]
  split
  · rw [pvSelected_submitted]
  · rfl

lemma pvStep_sampled_le (sn : ℤ) (dn : String) (iv w : ℕ) (d : Option Lmk) (s : PVState) :
    (pvStep sn dn iv w d s).sampled_frames ≤ s.sampled_frames + 1 := by
  simp only [pvStep]
  split
  · exact pvSelected_sampled_le sn dn w d _
  · exact Nat.le_succ _

/-! ## Loop invariants -/

lemma pvStep_data_len (sn : ℤ) (dn : String) (iv w : ℕ) (d : Option Lmk)
    (s : PVState) (h : s.data.length ≤ s.sampled_frames) :
    (pvStep sn dn iv w d s).data.length ≤ (pvStep sn dn iv w d s).sampled_frames := by
  simp only [pvStep]
  split
  · cases d with
    | some l =>
        simp only [pvSelected]
        split <;> (try simp) <;> omega
    | none =>
        simp only [pvSelected]
        split
        · simp [interpolate_length]; omega
        · simpa using h
  · simpa using h

lemma pvStep_data_meta (sn : ℤ) (dn : String) (iv w : ℕ) (d : Option Lmk)
    (s : PVState)
    (h : ∀ r ∈ s.data, r.sample_number = sn ∧ r.dance_name = dn) :
    ∀ r ∈ (pvStep sn dn iv w d s).data,
      r.sample_number = sn ∧ r.dance_name = dn := by
  simp only [pvStep]
  split
  · cases d with
    | some l =>
        simp only [pvSelected]
        split
        · intro r hr
          simp only [List.mem_append, List.mem_singleton] at hr
          rcases hr with hr | rfl
          · exact h r hr
          · exact ⟨rfl, rfl⟩
        · exact fun r hr => h r hr
    | none =>
        simp only [pvSelected]
        split
        · intro r hr
          simp only [List.mem_append] at hr
          rcases hr with hr | hr
          · exact h r hr
          · rename_i hlen
            have hp : s.data.getD (s.data.length - 2) default ∈ s.data :=
              getD_mem_of_lt _ _ (by omega)
            have hmeta := interpolate_meta _ _ 1 r hr
            have hph := h _ hp
            exact ⟨hmeta.1.trans hph.1, hmeta.2.trans hph.2⟩
        · exact fun r hr => h r hr
  · exact fun r hr => h r hr

lemma pvStep_subinv (sn : ℤ) (dn : String) (iv w : ℕ) (d : Option Lmk)
    (s : PVState)
    (h : ∀ p, p ∈ s.submitted ↔ p ∈ s.decoded ∧ p % iv = 0) :
    ∀ p, p ∈ (pvStep sn dn iv w d s).submitted ↔
      p ∈ (pvStep sn dn iv w d s).decoded ∧ p % iv = 0 := by
  intro p
  rw [pvStep_decoded, pvStep_submitted]
  by_cases hc : s.frame_count % iv = 0
  · simp only [hc, if_true, List.mem_append, List.mem_singleton]
    constructor
    · rintro (hp | rfl)
      · rcases (h p).1 hp with ⟨hd, hm⟩
        exact ⟨Or.inl hd, hm⟩
      · exact ⟨Or.inr rfl, hc⟩
    · rintro ⟨hd | rfl, hm⟩
      · exact Or.inl ((h p).2 ⟨hd, hm⟩)
      · exact Or.inr rfl
  · simp only [hc, if_false, List.mem_append, List.mem_singleton]
    constructor
    · intro hp
      rcases (h p).1 hp with ⟨hd, hm⟩
      exact ⟨Or.inl hd, hm⟩
    · rintro ⟨hd | rfl, hm⟩
      · exact (h p).2 ⟨hd, hm⟩
      · exact absurd hm hc

lemma pvRun_sampled_le (sn : ℤ) (dn : String) (fps iv w : ℕ)
    (l : List (Option Lmk)) (s : PVState) (h : s.sampled_frames ≤ fps) :
    (pvRun sn dn fps iv w l s).sampled_frames ≤ fps := by
  induction l generalizing s with
  | nil => simpa [pvRun] using h
  | cons d rest ih =>
      simp only [pvRun]
      split
      · rename_i hlt
        exact ih _ (le_trans (pvStep_sampled_le sn dn iv w d s) (by omega))
      · exact h

lemma pvRun_data_len (sn : ℤ) (dn : String) (fps iv w : ℕ)
    (l : List (Option Lmk)) (s : PVState) (h : s.data.length ≤ s.sampled_frames) :
    (pvRun sn dn fps iv w l s).data.length ≤
      (pvRun sn dn fps iv w l s).sampled_frames := by
  induction l generalizing s with
  | nil => simpa [pvRun] using h
  | cons d rest ih =>
      simp only [pvRun]
      split
      · exact ih _ (pvStep_data_len sn dn iv w d s h)
      · exact h

lemma pvRun_data_meta (sn : ℤ) (dn : String) (fps iv w : ℕ)
    (l : List (Option Lmk)) (s : PVState)
    (h : ∀ r ∈ s.data, r.sample_number = sn ∧ r.dance_name = dn) :
    ∀ r ∈ (pvRun sn dn fps iv w l s).data,
      r.sample_number = sn ∧ r.dance_name = dn := by
  induction l generalizing s with
  | nil => simpa [pvRun] using h
  | cons d rest ih =>
      simp only [pvRun]
      split
      · exact ih _ (pvStep_data_meta sn dn iv w d s h)
      · exact h

lemma pvRun_subinv (sn : ℤ) (dn : String) (fps iv w : ℕ)
    (l : List (Option Lmk)) (s : PVState)
    (h : ∀ p, p ∈ s.submitted ↔ p ∈ s.decoded ∧ p % iv = 0) :
    ∀ p, p ∈ (pvRun sn dn fps iv w l s).submitted ↔
      p ∈ (pvRun sn dn fps iv w l s).decoded ∧ p % iv = 0 := by
  induction l generalizing s with
  | nil => simpa [pvRun] using h
  | cons d rest ih =>
      simp only [pvRun]
      split
      · exact ih _ (pvStep_subinv sn dn iv w d s h)
      · exact h

/-! ## Further helper lemmas -/

lemma extract_go_unknown (fl : String) (valid : List String)
    (h : ∀ dance ∈ valid, chars_have_sub fl.data (lower_str dance).data = false) :
    extract_dance_name_go fl valid = ("unknown") := by
  induction valid with
  | nil => rfl
  | cons dance rest ih =>
      have hd := h dance (List.mem_cons_self dance rest)
      simp only [extract_dance_name_go, hd, Bool.false_eq_true, if_false]
      exact ih (fun d hdm => h d (List.mem_cons_of_mem _ hdm))

lemma interpolate_getElem (p q : FrameRec) (m j : ℕ) (hj : j < m) :
    (interpolate_missing_frames p q m).getD j default =
      { sample_number := p.sample_number,
        frame_number := p.frame_number + ((j + 1 : ℕ) : ℤ),
        dance_name := p.dance_name,
        coords := fun idx coord =>
          (1 - ((j + 1 : ℕ) : ℚ) / ((m : ℚ) + 1)) * p.coords idx coord
            + (((j + 1 : ℕ) : ℚ) / ((m : ℚ) + 1)) * q.coords idx coord } := by
  have hlt : j < (interpolate_missing_frames p q m).length := by
    rw [interpolate_length]; exact hj
  rw [List.getD_eq_getElem _ _ hlt]
  simp only [interpolate_missing_frames, List.getElem_map, List.getElem_range]

lemma pvSelected_first_detection (sn : ℤ) (dn : String) (w : ℕ) (lmk : Lmk)
    (s : PVState) (hbuf : s.frame_buffer = []) (hw : 1 ≤ w) :
    (pvSelected sn dn w (some lmk) s).data =
      s.data ++ [{ sample_number := sn,
                   frame_number := (s.sampled_frames : ℤ) + 1,
                   dance_name := dn, coords := lmk }] := by
  simp only [pvSelected, create_landmark_dict]
  rw [hbuf, push_buffer_nil _ _ hw, smooth_single _ _ hw]
  simp only [unflatten_flatten]

lemma pvSelected_missing (sn : ℤ) (dn : String) (w : ℕ) (s : PVState) :
    (2 ≤ s.data.length →
       (pvSelected sn dn w none s).data =
         s.data ++ interpolate_missing_frames
           (s.data.getD (s.data.length - 2) default)
           (s.data.getD (s.data.length - 1) default) 1 ∧
       (pvSelected sn dn w none s).sampled_frames = s.sampled_frames + 1) ∧
    (s.data.length < 2 →
       (pvSelected sn dn w none s).data = s.data ∧
       (pvSelected sn dn w none s).sampled_frames = s.sampled_frames) := by
  constructor
  · intro h
    simp only [pvSelected, if_pos h]
    constructor <;> trivial
  · intro h
    simp only [pvSelected, if_neg (by omega : ¬ 2 ≤ s.data.length)]
    constructor <;> trivial

/-! ## Claim theorems -/

/-- C2: for any two frames and any `num_missing ≥ 1`,
`interpolate_missing_frames` returns exactly `num_missing` frames; the
`i`-th (1-based) has every numeric field equal to
`(1 - r) * prev + r * next` with `r = i / (num_missing + 1)`,
`frame_number = prev.frame_number + i`, and `sample_number` and `dance_name`
copied from `prev_frame`; with `num_missing = 1` every numeric field is the
exact midpoint of the two frames. -/
theorem interpolate_missing_frames_contract (p q : FrameRec) (m : ℕ)
    (hm : 1 ≤ m) :
    (interpolate_missing_frames p q m).length = m ∧
    (∀ i : ℕ, 1 ≤ i → i ≤ m →
      (interp_at p q m i).frame_number = p.frame_number + (i : ℤ) ∧
      (interp_at p q m i).sample_number = p.sample_number ∧
      (interp_at p q m i).dance_name = p.dance_name ∧
      (∀ idx coord, (interp_at p q m i).coords idx coord =
        (1 - (i : ℚ) / ((m : ℚ) + 1)) * p.coords idx coord
          + ((i : ℚ) / ((m : ℚ) + 1)) * q.coords idx coord)) ∧
    (∀ idx coord, (interp_at p q 1 1).coords idx coord =
      (p.coords idx coord + q.coords idx coord) / 2) := by
  refine ⟨interpolate_length p q m, ?_, ?_⟩
  · intro i h1 h2
    have hj : i - 1 < m := by omega
    have hi := interpolate_getElem p q m (i - 1) hj
    rw [show i - 1 + 1 = i from by omega] at hi
    unfold interp_at
    rw [hi]
    exact ⟨rfl, rfl, rfl, fun idx coord => rfl⟩
  · intro idx coord
    have h0 := interpolate_getElem p q 1 0 (by omega)
    unfold interp_at
    rw [show (1 : ℕ) - 1 = 0 from rfl, h0]
    show (1 - ((0 + 1 : ℕ) : ℚ) / ((1 : ℚ) + 1)) * p.coords idx coord
        + (((0 + 1 : ℕ) : ℚ) / ((1 : ℚ) + 1)) * q.coords idx coord
      = (p.coords idx coord + q.coords idx coord) / 2
    push_cast
    ring

/-- C2 witness: the contract instantiated at two concrete records and
`num_missing = 1`. -/
theorem interpolate_missing_frames_contract_witness :
    (interpolate_missing_frames (wrec 1) (wrec 2) 1).length = 1 ∧
    (∀ i : ℕ, 1 ≤ i → i ≤ 1 →
      (interp_at (wrec 1) (wrec 2) 1 i).frame_number = (wrec 1).frame_number + (i : ℤ) ∧
      (interp_at (wrec 1) (wrec 2) 1 i).sample_number = (wrec 1).sample_number ∧
      (interp_at (wrec 1) (wrec 2) 1 i).dance_name = (wrec 1).dance_name ∧
      (∀ idx coord, (interp_at (wrec 1) (wrec 2) 1 i).coords idx coord =
        (1 - (i : ℚ) / ((1 : ℚ) + 1)) * (wrec 1).coords idx coord
          + ((i : ℚ) / ((1 : ℚ) + 1)) * (wrec 2).coords idx coord)) ∧
    (∀ idx coord, (interp_at (wrec 1) (wrec 2) 1 1).coords idx coord =
      ((wrec 1).coords idx coord + (wrec 2).coords idx coord) / 2) :=
  interpolate_missing_frames_contract (wrec 1) (wrec 2) 1 (by decide)

/-- C3: `smooth_landmarks` returns no value exactly when the buffer is
empty, and on a buffer of `n` vectors with `1 ≤ n ≤ smoothing_window` it
returns the naive element-wise arithmetic mean of all of them. -/
theorem smooth_landmarks_mean_spec (buffer : List Vec132) (w : ℕ) :
    (smooth_landmarks buffer w = none ↔ buffer = []) ∧
    (1 ≤ buffer.length → buffer.length ≤ w →
      smooth_landmarks buffer w = some (naive_mean buffer)) := by
  constructor
  · constructor
    · intro h
      by_contra hne
      have hl : 0 < buffer.length := List.length_pos.2 hne
      simp only [smooth_landmarks] at h
      rw [if_neg (by omega : ¬ buffer.length < 1)] at h
      exact Option.noConfusion h
    · rintro rfl
      simp [smooth_landmarks]
  · intro h1 h2
    simp only [smooth_landmarks]
    split_ifs with ha hb
    · exact absurd ha (by omega)
    · exact absurd hb (by omega)
    · rw [show buffer.length - w = 0 from by omega, List.drop_zero]
      rfl

/-- C3 witness: a two-vector buffer under a window of 5. -/
theorem smooth_landmarks_mean_spec_witness :
    smooth_landmarks [vecConst 0, vecConst 1] 5 =
      some (naive_mean [vecConst 0, vecConst 1]) :=
  (smooth_landmarks_mean_spec [vecConst 0, vecConst 1] 5).2 (by decide) (by decide)

/-- C4: at a selected frame with no detection, the loop body appends the
interpolation (with `num_missing = 1`) of the last two accumulated records
and increments the sampled-frame count when at least two records exist, and
otherwise leaves the sequence and the sampled-frame count unchanged (the
frame is silently dropped; the step is a total function, so no exception
can arise). -/
theorem missing_detection_step_spec (sn : ℤ) (dn : String) (iv w : ℕ)
    (s : PVState) (hsel : s.frame_count % iv = 0) :
    (2 ≤ s.data.length →
       (pvStep sn dn iv w none s).data =
         s.data ++ interpolate_missing_frames
           (s.data.getD (s.data.length - 2) default)
           (s.data.getD (s.data.length - 1) default) 1 ∧
       (pvStep sn dn iv w none s).sampled_frames = s.sampled_frames + 1) ∧
    (s.data.length < 2 →
       (pvStep sn dn iv w none s).data = s.data ∧
       (pvStep sn dn iv w none s).sampled_frames = s.sampled_frames) := by
  simp only [pvStep]
  split
  · exact pvSelected_missing sn dn w
      { s with decoded := s.decoded ++ [s.frame_count],
               submitted := s.submitted ++ [s.frame_count] }
  · exact absurd hsel (by assumption)

/-- C4 witness: a concrete state with two accumulated records at a selected
position (interval 1). -/
theorem missing_detection_step_spec_witness :
    (2 ≤ wstate.data.length →
       (pvStep 7 ("floss") 1 5 none wstate).data =
         wstate.data ++ interpolate_missing_frames
           (wstate.data.getD (wstate.data.length - 2) default)
           (wstate.data.getD (wstate.data.length - 1) default) 1 ∧
       (pvStep 7 ("floss") 1 5 none wstate).sampled_frames =
         wstate.sampled_frames + 1) ∧
    (wstate.data.length < 2 →
       (pvStep 7 ("floss") 1 5 none wstate).data = wstate.data ∧
       (pvStep 7 ("floss") 1 5 none wstate).sampled_frames =
         wstate.sampled_frames) :=
  missing_detection_step_spec 7 ("floss") 1 5 wstate (by decide)

/-- C5: for a video with at least one reported frame and a positive target
`K`, the returned sequence has length at most `K` (hence between 0 and `K`),
and the loop stops as soon as `K` frames have been accumulated or the frames
run out (`pvRun` returns its state unchanged once the sampled count has
reached `K`, and on an empty remaining stream). -/
theorem process_video_length_bound (v : Video) (sn : ℤ) (K w : ℕ)
    (hT : 1 ≤ v.total_frames) (hK : 0 < K) :
    (process_video v sn K w).length ≤ K ∧
    (∀ (dn : String) (iv : ℕ) (l : List (Option Lmk)) (s : PVState),
       K ≤ s.sampled_frames → pvRun sn dn K iv w l s = s) := by
  constructor
  · show (process_video_trace v sn K w).data.length ≤ K
    simp only [process_video_trace]
    split_ifs with h1 h2
    · simp [initState]
    · simp [initState]
    · exact le_trans
        (pvRun_data_len _ _ _ _ _ _ _ (by simp [initState]))
        (pvRun_sampled_le _ _ _ _ _ _ _ (by simp [initState]))
  · intro dn iv l s h
    cases l with
    | nil => rfl
    | cons d rest =>
        have hnl : ¬ s.sampled_frames < K := by omega
        simp [pvRun, hnl]

/-- C5 witness: the one-frame floss video with target `K = 1`. -/
theorem process_video_length_bound_witness :
    (process_video vid2 7 1 5).length ≤ 1 ∧
    (∀ (dn : String) (iv : ℕ) (l : List (Option Lmk)) (s : PVState),
       1 ≤ s.sampled_frames → pvRun 7 dn 1 iv 5 l s = s) :=
  process_video_length_bound vid2 7 1 5 (by decide) (by decide)

/-- C6: `process_video` computes the sampling interval as
`max(1, total_frames // frames_per_sample)` and a frame position is
submitted to the detector exactly when it was decoded and its 0-based
position is divisible by that interval. -/
theorem process_video_sampling_rule (v : Video) (sn : ℤ) (fps w : ℕ)
    (hfps : 0 < fps) :
    ∀ p : ℕ, p ∈ (process_video_trace v sn fps w).submitted ↔
      p ∈ (process_video_trace v sn fps w).decoded ∧
        p % (max 1 (v.total_frames / fps)) = 0 := by
  intro p
  simp only [process_video_trace]
  split_ifs with h1 h2
  · simp [initState]
  · simp [initState]
  · exact pvRun_subinv _ _ _ _ _ _ _ (fun q => by simp [initState]) p

/-- C6 witness: position 0 of the four-frame griddy video with target 4. -/
theorem process_video_sampling_rule_witness :
    0 ∈ (process_video_trace vid1 1 4 5).submitted ↔
      0 ∈ (process_video_trace vid1 1 4 5).decoded ∧
        0 % (max 1 (vid1.total_frames / 4)) = 0 :=
  process_video_sampling_rule vid1 1 4 5 (by decide) 0

/-- C7: a video reporting zero frames yields the empty sequence, with no
frame decoded and no detector call, and the function returns normally. -/
theorem process_video_zero_frames (v : Video) (sn : ℤ) (fps w : ℕ)
    (h : v.total_frames = 0) :
    process_video v sn fps w = [] ∧
    (process_video_trace v sn fps w).decoded = [] ∧
    (process_video_trace v sn fps w).submitted = [] := by
  unfold process_video process_video_trace
  simp [h, initState]

/-- C7 witness: the zero-frame video. -/
theorem process_video_zero_frames_witness :
    process_video vid0 1 96 5 = [] ∧
    (process_video_trace vid0 1 96 5).decoded = [] ∧
    (process_video_trace vid0 1 96 5).submitted = [] :=
  process_video_zero_frames vid0 1 96 5 rfl

/-- C8: no returned record carries the sentinel `unknown` category, and any
video whose lower-cased filename contains no vocabulary term resolves to
the sentinel and yields the empty sequence. -/
theorem process_video_no_unknown_category (v : Video) (sn : ℤ) (fps w : ℕ) :
    (∀ r ∈ process_video v sn fps w, r.dance_name ≠ ("unknown")) ∧
    ((∀ dance ∈ VALID_DANCE_NAMES,
        chars_have_sub (lower_str v.filename).data (lower_str dance).data = false) →
      extract_dance_name v.filename VALID_DANCE_NAMES = ("unknown") ∧
      process_video v sn fps w = []) := by
  constructor
  · show ∀ r ∈ (process_video_trace v sn fps w).data, r.dance_name ≠ ("unknown")
    simp only [process_video_trace]
    split_ifs with h1 h2
    · simp [initState]
    · simp [initState]
    · intro r hr
      have hmeta := pvRun_data_meta _ _ _ _ _ _ _
        (by simp [initState] : ∀ x ∈ initState.data,
          x.sample_number = sn ∧
            x.dance_name = extract_dance_name v.filename VALID_DANCE_NAMES) r hr
      rw [hmeta.2]
      exact h2
  · intro hno
    have he : extract_dance_name v.filename VALID_DANCE_NAMES = ("unknown") :=
      extract_go_unknown (lower_str v.filename) VALID_DANCE_NAMES hno
    refine ⟨he, ?_⟩
    show (process_video_trace v sn fps w).data = []
    simp only [process_video_trace]
    split_ifs with h1
    · rfl
    · rfl

/-- C8 witness: the uncategorizable video `clip001.mp4`. -/
theorem process_video_no_unknown_category_witness :
    extract_dance_name vid3.filename VALID_DANCE_NAMES = ("unknown") ∧
    process_video vid3 1 96 5 = [] :=
  (process_video_no_unknown_category vid3 1 96 5).2 (by decide)

/-- C9: every returned record carries the given sample number and the
category resolved from the video's filename, whether it came from a
successful detection or from interpolation. -/
theorem process_video_label_invariant (v : Video) (sn : ℤ) (fps w : ℕ) :
    ∀ r ∈ process_video v sn fps w,
      r.sample_number = sn ∧
        r.dance_name = extract_dance_name v.filename VALID_DANCE_NAMES := by
  show ∀ r ∈ (process_video_trace v sn fps w).data, _
  simp only [process_video_trace]
  split_ifs with h1 h2
  · simp [initState]
  · simp [initState]
  · exact pvRun_data_meta _ _ _ _ _ _ _ (by simp [initState])

/-- C9 witness: the sole record of the one-frame floss video. -/
theorem process_video_label_invariant_witness :
    ((process_video vid2 7 1 5).headD default).sample_number = 7 ∧
      ((process_video vid2 7 1 5).headD default).dance_name =
        extract_dance_name vid2.filename VALID_DANCE_NAMES :=
  process_video_label_invariant vid2 7 1 5 _
    (headD_mem_of_length_pos _ _ (by decide))

/-- C10: on the first successful detection of a video (empty smoothing
buffer, selected position, positive window) the appended record carries the
raw detected landmark values unchanged, the mean of a single vector being
that vector. -/
theorem first_detection_raw_record (sn : ℤ) (dn : String) (iv w : ℕ)
    (lmk : Lmk) (s : PVState) (hbuf : s.frame_buffer = [])
    (hsel : s.frame_count % iv = 0) (hw : 1 ≤ w) :
    (pvStep sn dn iv w (some lmk) s).data =
      s.data ++ [{ sample_number := sn,
                   frame_number := (s.sampled_frames : ℤ) + 1,
                   dance_name := dn, coords := lmk }] := by
  simp only [pvStep]
  split
  · exact pvSelected_first_detection sn dn w lmk
      { s with decoded := s.decoded ++ [s.frame_count],
               submitted := s.submitted ++ [s.frame_count] } hbuf hw
  · exact absurd hsel (by assumption)

/-- C10 witness: first detection from the initial state. -/
theorem first_detection_raw_record_witness :
    (pvStep 7 ("floss") 1 5 (some (lmkConst 1)) initState).data =
      initState.data ++ [{ sample_number := 7,
                           frame_number := (initState.sampled_frames : ℤ) + 1,
                           dance_name := ("floss"), coords := lmkConst 1 }] :=
  first_detection_raw_record 7 ("floss") 1 5 (lmkConst 1) initState rfl
    (by decide) (by decide)

/-- C1 (failing evaluation): for the four-frame griddy video whose third
sampled frame has no detection, `process_video` emits the frame numbers
`[1, 2, 2, 4]` — a duplicate and a gap — because the interpolated record is
numbered `data[-2].frame_number + 1`, which repeats the number of `data[-1]`
while the sampled-frame counter still advances. -/
theorem process_video_frame_numbers_break :
    (process_video vid1 1 4 5).map FrameRec.frame_number = [1, 2, 2, 4] ∧
    (process_video vid1 1 4 5).map FrameRec.frame_number ≠
      [1, 2, 3, 4] := by
  constructor
  · decide
  · decide
